import Mathlib

/-!
Shallow embedding of `visualize.py` (EIS visualizer): the frame-decode and
overlay-drawing routine `SubscriberCallback.draw_defect`, the per-topic
bounded-queue hand-off `SubscriberCallback.queue_publish`, and one iteration
of the receive loop `SubscriberCallback.callback`.

Python values that the source reads dynamically (metadata dict fields,
display_info entries) are modelled with `Option` for key presence and a small
`PyVal` universe for dynamically typed values.  Side effects are made
explicit: drawing calls (`cv2.rectangle`, `cv2.putText`,
`cv2.copyMakeBorder`) become a list of `DrawOp`, logger calls become a list
of `LogEvent`, and Python exceptions become `Except PyErr`.  The external
codec `cv2.imdecode` is a parameter of the embedding (it is a third-party
library, not code of this repository).
-/

set_option autoImplicit false

namespace Visualize

/-- Dynamically typed Python value, as far as the claims need it. -/
inductive PyVal where
  | int (i : Int)
  | str (s : String)
  deriving Repr, DecidableEq

/-- Python `str(v)` for the values we model. -/
def pyStr : PyVal → String
  | .int i => toString i
  | .str s => s

/-- A BGR color tuple as used by the cv2 calls. -/
abbrev Color := Int × Int × Int

/-- One drawing side effect on the frame (cv2 call), recorded in order. -/
inductive DrawOp where
  | rect (tl br : Int × Int) (color : Color) (thickness : Nat)
  | text (s : String) (pos : Int × Int) (color : Color) (thickness : Nat)
  | border (top bottom left right : Nat) (color : Color)
  deriving Repr, DecidableEq

/-- One logger call, recorded in order. -/
inductive LogEvent where
  | info (msg : String)
  | debug (msg : String)
  | warning (msg : String)
  | error (msg : String)
  | exception (msg : String)
  deriving Repr, DecidableEq

/-- A Python exception escaping a statement. -/
inductive PyErr where
  | keyError (key : String)
  | valueError (msg : String)
  | typeError (msg : String)
  deriving Repr, DecidableEq

/-- One entry of a `gva_meta` detection's `tensor` list: `l['label_id']`
may be Python `None`. -/
structure GvaLabel where
  label_id : Option Int
  deriving Repr, DecidableEq

/-- One `gva_meta` detection record: `{x, y, width, height, tensor}`. -/
structure GvaDetection where
  x : Int
  y : Int
  width : Int
  height : Int
  tensor : List GvaLabel
  deriving Repr, DecidableEq

/-- One `defects` record: top-left point, bottom-right point and the
`type` code (field renamed `dtype` since `type` is reserved in Lean). -/
structure Defect where
  tl : Int × Int
  br : Int × Int
  dtype : Int
  deriving Repr, DecidableEq

/-- One `display_info` entry: a Python dict whose `priority` and `info`
keys may be absent (KeyError on access) or dynamically typed. -/
structure DInfoEntry where
  priority : Option PyVal
  info : Option PyVal
  deriving Repr, DecidableEq

/-- The metadata record (`results`) received with a frame.  `height`,
`width`, `channels` are the required integer fields; the remaining source
fields are optional keys of the dict.  `extra` models the dynamically named
remaining keys of the dict in iteration order (the fixed field names never
contain the substring `Fps`, so only `extra` matters to the Fps loop). -/
structure Results where
  height : Int
  width : Int
  channels : Int
  encoding_type : Option PyVal
  encoding_level : Option PyVal
  gva_meta : Option (List GvaDetection)
  defects : Option (List Defect)
  extra : List (String × PyVal)
  display_info : Option (List DInfoEntry)
  deriving Repr, DecidableEq

/-- The pixel buffer in its three possible states after the decode stage. -/
inductive FrameData where
  | buf1d (data : List Nat)
  | shaped (h w c : Int) (data : List Nat)
  | decoded (data : List Nat)
  deriving Repr, DecidableEq

/-- Number of 8-bit samples held by the buffer. -/
def FrameData.numSamples : FrameData → Nat
  | .buf1d d => d.length
  | .shaped _ _ _ d => d.length
  | .decoded d => d.length

/-- Result of one successful `draw_defect` call: the decoded frame, the
drawing calls made on it, and the logger calls made. -/
structure RenderOut where
  frame : FrameData
  ops : List DrawOp
  log : List LogEvent
  deriving Repr, DecidableEq

/-- Python truthiness of a string literal (non-empty strings are truthy). -/
def pyTruthyStr (s : String) : Bool := !s.isEmpty

/-- The source's branch condition
`if 'encoding_type' and 'encoding_level' in results:` — Python parses this
as `('encoding_type') and ('encoding_level' in results)`, so the non-empty
string literal is truthy and only membership of `encoding_level` is
actually tested. -/
def encodingCond (r : Results) : Bool :=
  pyTruthyStr "encoding_type" && r.encoding_level.isSome

/-- `np.reshape(frame, (h, w, c))` on a 1-D uint8 buffer: succeeds exactly
when the element count matches, else raises `ValueError`.  (NumPy's `-1`
dimension inference is not modelled; every claim uses non-negative
dimensions.) -/
def reshape3 (data : List Nat) (h w c : Int) : Except PyErr FrameData :=
  if 0 ≤ h ∧ 0 ≤ w ∧ 0 ≤ c ∧ (data.length : Int) = h * w * c then
    .ok (.shaped h w c data)
  else
    .error (.valueError "cannot reshape array")

/-- Lookup in a Python `dict[str, str]` label map (`str(id) in stream_label`
followed by `stream_label[str(id)]`). -/
def labelLookup (m : List (String × String)) (k : String) : Option String :=
  (m.find? (fun p => p.1 == k)).map (fun p => p.2)

/-- Label drawing for one detection's `tensor` list.  `c` is the running
vertical-stacking counter (`c` in the source): it is read before and
incremented after every entry whose `label_id` is not `None`, whether or
not a label gets drawn.  Returns the updated counter, the draw ops and the
log events. -/
def gvaLabels (bad : Color) (sl : Option (List (String × String)))
    (x1 y1 : Int) : Nat → List GvaLabel → Nat × List DrawOp × List LogEvent
  | c, [] => (c, [], [])
  | c, l :: ls =>
    match l.label_id with
    | none => gvaLabels bad sl x1 y1 c ls
    | some id =>
      let pos : Int × Int := (x1, y1 - (c : Int))
      let step : List DrawOp × List LogEvent :=
        match sl with
        | some m =>
          match labelLookup m (toString id) with
          | some lbl => ([.text lbl pos bad 2], [])
          | none => ([], [.error ("Label id:" ++ toString id ++ " not found")])
        | none => ([], [.error ("Label id:" ++ toString id ++ " not found")])
      let rest := gvaLabels bad sl x1 y1 (c + 10) ls
      (rest.1, step.1 ++ rest.2.1, step.2 ++ rest.2.2)

/-- The `gva_meta` loop: per detection a 2-px rectangle in the bad color
from `(x, y)` to `(x + width, y + height)`, then its labels.  The counter
`c` is NOT reset between detections (it is initialized once before the
loop in the source). -/
def gvaDets (bad : Color) (sl : Option (List (String × String))) :
    Nat → List GvaDetection → Nat × List DrawOp × List LogEvent
  | c, [] => (c, [], [])
  | c, d :: ds =>
    let x1 := d.x
    let y1 := d.y
    let x2 := x1 + d.width
    let y2 := y1 + d.height
    let lab := gvaLabels bad sl x1 y1 c d.tensor
    let rest := gvaDets bad sl lab.1 ds
    (rest.1, .rect (x1, y1) (x2, y2) bad 2 :: (lab.2.1 ++ rest.2.1),
     lab.2.2 ++ rest.2.2)

/-- The `defects` loop body: per defect a 2-px rectangle in the bad color
from `tl` to `br`; when a label map is given, text below the box at
`(tl.x, br.y + 20)` — the mapped label when `str(type)` is in the map,
else the raw `str(type)`.  The source logs nothing in this loop. -/
def defectOps (bad : Color) (sl : Option (List (String × String))) :
    List Defect → List DrawOp
  | [] => []
  | d :: ds =>
    let labelOps : List DrawOp :=
      match sl with
      | none => []
      | some m =>
        let pos : Int × Int := (d.tl.1, d.br.2 + 20)
        match labelLookup m (toString d.dtype) with
        | some lbl => [.text lbl pos bad 2]
        | none => [.text (toString d.dtype) pos bad 2]
    .rect d.tl d.br bad 2 :: (labelOps ++ defectOps bad sl ds)

/-- Case-sensitive test for the substring `Fps` in a key name
(Python `"Fps" in res`). -/
def containsFps (s : String) : Bool := (s.splitOn "Fps").length ≥ 2

/-- The FPS loop: for every key containing `Fps`, log the line and draw it
at x = 20, y starting at 20 and stepping by 20 per drawn line, in the good
color with thickness 1. -/
def fpsSection (good : Color) : Int → List (String × PyVal) →
    List DrawOp × List LogEvent
  | _, [] => ([], [])
  | y, (k, v) :: rest =>
    if containsFps k then
      let s := k ++ " : " ++ pyStr v
      let r := fpsSection good (y + 20) rest
      (.text s (20, y) good 1 :: r.1, .info s :: r.2)
    else
      fpsSection good y rest

/-- Python `priority == n` for an `int` literal `n`: equality is `False`
(never an exception) when `priority` is not an int. -/
def pyEqInt (v : PyVal) (n : Int) : Bool :=
  match v with
  | .int i => i == n
  | .str _ => false

/-- One `display_info` entry under the source's per-entry try/except.
Returns the updated `dy`, the draw ops and the log events.  A missing
`priority` or `info` key raises `KeyError` (caught and logged) before `dy`
is incremented; after the increment, at most one of the three `==` guards
can hold, and `cv2.putText` raises `TypeError` (caught and logged) when
`info` is not a string; a `priority` that matches none of 0/1/2 (for
example a string) draws nothing and raises nothing. -/
def dinfoEntryStep (dy : Int) (e : DInfoEntry) : Int × List DrawOp × List LogEvent :=
  match e.priority with
  | none => (dy, [], [.exception "Key not found: priority"])
  | some priority =>
    match e.info with
    | none => (dy, [], [.exception "Key not found: info"])
    | some info =>
      let dy := dy + 10
      let colorFor : Option Color :=
        if pyEqInt priority 0 then some (0, 255, 0)
        else if pyEqInt priority 1 then some (0, 150, 170)
        else if pyEqInt priority 2 then some (0, 0, 255)
        else none
      match colorFor with
      | none => (dy, [], [])
      | some col =>
        match info with
        | .str s => (dy, [.text s (20, dy) col 1], [])
        | .int _ => (dy, [], [.exception "Invalid type for display info"])

/-- The `display_info` loop, threading `dy` (starts at 50 in the source). -/
def dinfoSection : Int → List DInfoEntry → List DrawOp × List LogEvent
  | _, [] => ([], [])
  | dy, e :: es =>
    let step := dinfoEntryStep dy e
    let rest := dinfoSection step.1 es
    (step.2.1 ++ rest.1, step.2.2 ++ rest.2)

/-- The decode stage of `draw_defect` (lines 111-129 of the source): the
encoding-dict construction under the faulty branch condition, then either
the `cv2.imdecode` attempt (whose raised `cv2.error` is caught, logged,
and leaves the frame as the un-decoded 1-D buffer) or the direct reshape
to `(height, width, channels)`. -/
def decodeStage (imdecode : List Nat → Except String (List Nat))
    (results : Results) (blob : List Nat) :
    Except PyErr (FrameData × List LogEvent) := do
  let encoding : Option (PyVal × PyVal) ←
    if encodingCond results then
      match results.encoding_type with
      | none => Except.error (.keyError "encoding_type")
      | some t =>
        match results.encoding_level with
        | none => Except.error (.keyError "encoding_level")
        | some lv => Except.ok (some (t, lv))
    else
      Except.ok none
  match encoding with
  | some _ =>
    match imdecode blob with
    | .ok d => Except.ok (.decoded d, ([] : List LogEvent))
    | .error e => Except.ok (.buf1d blob, [.error ("frame decode exception: " ++ e)])
  | none => do
    let f ← reshape3 blob results.height results.width results.channels
    Except.ok (f, [LogEvent.debug "Encoding not enabled..."])

/-- The `gva_meta` section of `draw_defect`: nothing when the key is
absent. -/
def gvaSection (bad : Color) (sl : Option (List (String × String)))
    (r : Results) : Nat × List DrawOp × List LogEvent :=
  match r.gva_meta with
  | some dets => gvaDets bad sl 0 dets
  | none => (0, [], [])

/-- The `defects` section of `draw_defect`: the per-defect ops, followed
by the one 5-px border whose color is the bad color when the defect list
is truthy (non-empty) and the good color when it is empty; no ops at all
when the key is absent. -/
def defectSection (good bad : Color) (sl : Option (List (String × String)))
    (r : Results) : List DrawOp :=
  match r.defects with
  | some ds =>
    let borderColor := if ds.isEmpty then good else bad
    defectOps bad sl ds ++ [.border 5 5 5 5 borderColor]
  | none => []

/-- The `display_info` section of `draw_defect`: nothing when the key is
absent; `dy` starts at 50. -/
def dinfoPart (r : Results) : List DrawOp × List LogEvent :=
  match r.display_info with
  | some es => dinfoSection 50 es
  | none => ([], [])

/-- All drawing calls of the overlay part of `draw_defect`, in source
order: gva_meta boxes and labels, defects boxes/labels/border, Fps lines,
display_info lines. -/
def overlayOps (good bad : Color) (sl : Option (List (String × String)))
    (r : Results) : List DrawOp :=
  (gvaSection bad sl r).2.1 ++ defectSection good bad sl r ++
    (fpsSection good 20 r.extra).1 ++ (dinfoPart r).1

/-- All logger calls of the overlay part of `draw_defect`, in source
order (the defects loop logs nothing). -/
def overlayLog (good bad : Color) (sl : Option (List (String × String)))
    (r : Results) : List LogEvent :=
  (gvaSection bad sl r).2.2 ++ (fpsSection good 20 r.extra).2 ++ (dinfoPart r).2

/-- `SubscriberCallback.draw_defect`.  `imdecode` models the external
`cv2.imdecode` codec: `.ok` is a successful decode, `.error` is a raised
`cv2.error` (the only exception class the source catches there). -/
def draw_defect (imdecode : List Nat → Except String (List Nat))
    (good_color bad_color : Color) (results : Results) (blob : List Nat)
    (stream_label : Option (List (String × String))) :
    Except PyErr RenderOut := do
  let dec ← decodeStage imdecode results blob
  Except.ok
    { frame := dec.1
      ops := overlayOps good_color bad_color stream_label results
      log := LogEvent.info "Preparing frame for visualization" :: dec.2 ++
        overlayLog good_color bad_color stream_label results }

/-- A Python `queue.Queue(maxsize = cap)` holding frames of type `α`
(FIFO buffer). -/
structure BQueue (α : Type) where
  cap : Nat
  buf : List α
  deriving Repr, DecidableEq

/-- `Queue.full()`: true when `maxsize` is positive and `qsize` has
reached it. -/
def BQueue.isFull {α : Type} (q : BQueue α) : Bool :=
  decide (q.cap ≠ 0 ∧ q.cap ≤ q.buf.length)

/-- `Queue.get_nowait()`: the oldest buffered frame, or `none` when empty
(the source guards with `empty()`, so the Empty exception is modelled as
`none`). -/
def BQueue.getNowait {α : Type} (q : BQueue α) : Option (α × BQueue α) :=
  match q.buf with
  | [] => none
  | f :: rest => some (f, { q with buf := rest })

/-- `SubscriberCallback.queue_publish`: iterate over every key of
`topicQueueDict`; on the key equal to `topic`, `put_nowait` the frame when
the queue is not full, else log the "queue is full" warning and discard
the frame.  Returns the updated dict and log. -/
def queue_publish {α : Type} (qd : List (String × BQueue α))
    (log : List LogEvent) (topic : String) (frame : α) :
    List (String × BQueue α) × List LogEvent :=
  match qd with
  | [] => ([], log)
  | (k, q) :: rest =>
    if k == topic then
      if q.isFull then
        let r := queue_publish rest
          (log ++ [.warning "Dropping frames as the queue is full"]) topic frame
        ((k, q) :: r.1, r.2)
      else
        let r := queue_publish rest log topic frame
        ((k, { q with buf := q.buf ++ [frame] }) :: r.1, r.2)
    else
      let r := queue_publish rest log topic frame
      ((k, q) :: r.1, r.2)

/-- One iteration of the `while True` receive loop in
`SubscriberCallback.callback`, with `save_image` disabled: when metadata
and blob are both non-null, run `draw_defect` and publish the result to
this topic's queue; a null metadata or blob is silently discarded.  No
exception from `draw_defect` is caught here — an `.error` outcome is the
loop terminating with that exception. -/
def callback_step (imdecode : List Nat → Except String (List Nat))
    (good_color bad_color : Color)
    (stream_label : Option (List (String × String))) (topic : String)
    (qd : List (String × BQueue RenderOut)) (log : List LogEvent)
    (msg : Option Results × Option (List Nat)) :
    Except PyErr (List (String × BQueue RenderOut) × List LogEvent) :=
  match msg with
  | (some metadata, some blob) => do
    let out ← draw_defect imdecode good_color bad_color metadata blob stream_label
    Except.ok (queue_publish qd (log ++ out.log) topic out)
  | _ => Except.ok (qd, log)

/-! Observation helpers used by the statements below. -/

/-- Is this op a rectangle of thickness 2? -/
def isRect2 : DrawOp → Bool
  | .rect _ _ _ t => t == 2
  | _ => false

/-- Is this op a border? -/
def isBorderOp : DrawOp → Bool
  | .border _ _ _ _ _ => true
  | _ => false

/-- Is this op a text draw? -/
def isTextOp : DrawOp → Bool
  | .text _ _ _ _ => true
  | _ => false

/-- Was this log call `logger.error`? -/
def isErrLog : LogEvent → Bool
  | .error _ => true
  | _ => false

/-- Was this log call `logger.warning`? -/
def isWarnLog : LogEvent → Bool
  | .warning _ => true
  | _ => false

def countRect2 (ops : List DrawOp) : Nat := (ops.filter isRect2).length

def countBorderOps (ops : List DrawOp) : Nat := (ops.filter isBorderOp).length

def countTextOps (ops : List DrawOp) : Nat := (ops.filter isTextOp).length

def countErrLogs (log : List LogEvent) : Nat := (log.filter isErrLog).length

def countWarnLogs (log : List LogEvent) : Nat := (log.filter isWarnLog).length

/-- Number of `gva_meta` detections on the record (0 when absent). -/
def gvaCount (r : Results) : Nat :=
  match r.gva_meta with
  | some dets => dets.length
  | none => 0

/-- A tensor entry whose `label_id` is not `None` but is missing from the
label map (or there is no label map): the source logs one error for it
and draws nothing. -/
def labelUnmapped (sl : Option (List (String × String))) (l : GvaLabel) : Bool :=
  match l.label_id with
  | none => false
  | some id =>
    match sl with
    | none => true
    | some m => (labelLookup m (toString id)).isNone

/-- A tensor entry whose `label_id` is not `None` and is present in the
label map: the source draws its mapped text. -/
def labelMapped (sl : Option (List (String × String))) (l : GvaLabel) : Bool :=
  match l.label_id with
  | none => false
  | some id =>
    match sl with
    | none => false
    | some m => (labelLookup m (toString id)).isSome

/-- Unknown-label occurrences over a whole detection list. -/
def sumUnmapped (sl : Option (List (String × String)))
    (dets : List GvaDetection) : Nat :=
  (dets.map (fun d => (d.tensor.filter (labelUnmapped sl)).length)).sum

/-- Mapped-label occurrences over a whole detection list. -/
def sumMapped (sl : Option (List (String × String)))
    (dets : List GvaDetection) : Nat :=
  (dets.map (fun d => (d.tensor.filter (labelMapped sl)).length)).sum

/-- Tensor entries with a non-`None` `label_id` — exactly the entries that
advance the stacking counter by 10. -/
def nonNoneCount (ls : List GvaLabel) : Nat :=
  (ls.filter (fun l => l.label_id.isSome)).length

/-- Counter-advancing entries over a whole detection list. -/
def sumNonNone (dets : List GvaDetection) : Nat :=
  (dets.map (fun d => nonNoneCount d.tensor)).sum

/-- The value of `dy` after the `display_info` loop has processed the
given entries starting from `dy`. -/
def dinfoDy : Int → List DInfoEntry → Int
  | dy, [] => dy
  | dy, e :: es => dinfoDy (dinfoEntryStep dy e).1 es

/-- Dictionary lookup on the topic-queue association list. -/
def lookupQ {α : Type} (t : String) (qd : List (String × BQueue α)) :
    Option (BQueue α) :=
  (qd.find? (fun p => p.1 == t)).map (fun p => p.2)

/-- The spec's literal reading of the encoding check: both the
`encoding_type` and `encoding_level` keys are present.  Stated from the
spec's words, for comparison with the source's `encodingCond`. -/
def claimedBothPresent (r : Results) : Bool :=
  r.encoding_type.isSome && r.encoding_level.isSome

deriving instance DecidableEq for Except

/-! Helper lemmas about the overlay sections. -/

theorem except_ok_bind {ε α β : Type} (a : α) (f : α → Except ε β) :
    (Except.ok a : Except ε α) >>= f = f a := rfl

theorem except_error_bind {ε α β : Type} (e : ε) (f : α → Except ε β) :
    (Except.error e : Except ε α) >>= f = Except.error e := rfl

theorem gvaLabels_counter (bad : Color) (sl : Option (List (String × String)))
    (x1 y1 : Int) (c : Nat) (ls : List GvaLabel) :
    (gvaLabels bad sl x1 y1 c ls).1 = c + 10 * nonNoneCount ls := by
  induction ls generalizing c with
  | nil => simp [gvaLabels, nonNoneCount]
  | cons l ls ih =>
    cases hl : l.label_id with
    | none => simp [gvaLabels, hl, ih, nonNoneCount, List.filter_cons]
    | some id =>
      simp only [gvaLabels, hl]
      rw [ih]
      simp [nonNoneCount, List.filter_cons, hl]
      ring

theorem gvaLabels_err_count (bad : Color) (sl : Option (List (String × String)))
    (x1 y1 : Int) (c : Nat) (ls : List GvaLabel) :
    countErrLogs (gvaLabels bad sl x1 y1 c ls).2.2 =
      (ls.filter (labelUnmapped sl)).length := by
  induction ls generalizing c with
  | nil => simp [gvaLabels, countErrLogs]
  | cons l ls ih =>
    cases hl : l.label_id with
    | none => simp [gvaLabels, hl, ih, List.filter_cons, labelUnmapped]
    | some id =>
      cases sl with
      | none =>
        simp [gvaLabels, hl, List.filter_cons, labelUnmapped, countErrLogs,
          List.filter_append, isErrLog] at ih ⊢
        exact ih _
      | some m =>
        cases hm : labelLookup m (toString id) with
        | none =>
          simp [gvaLabels, hl, hm, List.filter_cons, labelUnmapped, countErrLogs,
            List.filter_append, isErrLog] at ih ⊢
          exact ih _
        | some lbl =>
          simp [gvaLabels, hl, hm, List.filter_cons, labelUnmapped, countErrLogs,
            List.filter_append, isErrLog] at ih ⊢
          exact ih _

theorem gvaLabels_text_count (bad : Color) (sl : Option (List (String × String)))
    (x1 y1 : Int) (c : Nat) (ls : List GvaLabel) :
    countTextOps (gvaLabels bad sl x1 y1 c ls).2.1 =
      (ls.filter (labelMapped sl)).length := by
  induction ls generalizing c with
  | nil => simp [gvaLabels, countTextOps]
  | cons l ls ih =>
    cases hl : l.label_id with
    | none => simp [gvaLabels, hl, ih, List.filter_cons, labelMapped]
    | some id =>
      cases sl with
      | none =>
        simp [gvaLabels, hl, List.filter_cons, labelMapped, countTextOps,
          List.filter_append, isTextOp] at ih ⊢
        exact ih _
      | some m =>
        cases hm : labelLookup m (toString id) with
        | none =>
          simp [gvaLabels, hl, hm, List.filter_cons, labelMapped, countTextOps,
            List.filter_append, isTextOp] at ih ⊢
          exact ih _
        | some lbl =>
          simp [gvaLabels, hl, hm, List.filter_cons, labelMapped, countTextOps,
            List.filter_append, isTextOp] at ih ⊢
          exact ih _

theorem gvaLabels_rect_count (bad : Color) (sl : Option (List (String × String)))
    (x1 y1 : Int) (c : Nat) (ls : List GvaLabel) :
    countRect2 (gvaLabels bad sl x1 y1 c ls).2.1 = 0 := by
  induction ls generalizing c with
  | nil => simp [gvaLabels, countRect2]
  | cons l ls ih =>
    cases hl : l.label_id with
    | none => simp [gvaLabels, hl, ih]
    | some id =>
      cases sl with
      | none =>
        simp [gvaLabels, hl, countRect2, List.filter_append, isRect2] at ih ⊢
        exact ih _
      | some m =>
        cases hm : labelLookup m (toString id) with
        | none =>
          simp [gvaLabels, hl, hm, countRect2, List.filter_append, isRect2] at ih ⊢
          exact ih _
        | some lbl =>
          simp [gvaLabels, hl, hm, countRect2, List.filter_append, isRect2] at ih ⊢
          exact ih _

theorem gvaLabels_border_count (bad : Color) (sl : Option (List (String × String)))
    (x1 y1 : Int) (c : Nat) (ls : List GvaLabel) :
    countBorderOps (gvaLabels bad sl x1 y1 c ls).2.1 = 0 := by
  induction ls generalizing c with
  | nil => simp [gvaLabels, countBorderOps]
  | cons l ls ih =>
    cases hl : l.label_id with
    | none => simp [gvaLabels, hl, ih]
    | some id =>
      cases sl with
      | none =>
        simp [gvaLabels, hl, countBorderOps, List.filter_append, isBorderOp] at ih ⊢
        exact ih _
      | some m =>
        cases hm : labelLookup m (toString id) with
        | none =>
          simp [gvaLabels, hl, hm, countBorderOps, List.filter_append,
            isBorderOp] at ih ⊢
          exact ih _
        | some lbl =>
          simp [gvaLabels, hl, hm, countBorderOps, List.filter_append,
            isBorderOp] at ih ⊢
          exact ih _

theorem countRect2_append (a b : List DrawOp) :
    countRect2 (a ++ b) = countRect2 a + countRect2 b := by
  simp [countRect2, List.filter_append]

theorem countBorderOps_append (a b : List DrawOp) :
    countBorderOps (a ++ b) = countBorderOps a + countBorderOps b := by
  simp [countBorderOps, List.filter_append]

theorem countTextOps_append (a b : List DrawOp) :
    countTextOps (a ++ b) = countTextOps a + countTextOps b := by
  simp [countTextOps, List.filter_append]

theorem countErrLogs_append (a b : List LogEvent) :
    countErrLogs (a ++ b) = countErrLogs a + countErrLogs b := by
  simp [countErrLogs, List.filter_append]

theorem countWarnLogs_append (a b : List LogEvent) :
    countWarnLogs (a ++ b) = countWarnLogs a + countWarnLogs b := by
  simp [countWarnLogs, List.filter_append]

theorem gvaDets_counter (bad : Color) (sl : Option (List (String × String)))
    (c : Nat) (dets : List GvaDetection) :
    (gvaDets bad sl c dets).1 = c + 10 * sumNonNone dets := by
  induction dets generalizing c with
  | nil => simp [gvaDets, sumNonNone]
  | cons d ds ih =>
    simp only [gvaDets]
    rw [ih, gvaLabels_counter]
    simp [sumNonNone]
    ring

theorem gvaDets_err_count (bad : Color) (sl : Option (List (String × String)))
    (c : Nat) (dets : List GvaDetection) :
    countErrLogs (gvaDets bad sl c dets).2.2 = sumUnmapped sl dets := by
  induction dets generalizing c with
  | nil => simp [gvaDets, countErrLogs, sumUnmapped]
  | cons d ds ih =>
    simp only [gvaDets]
    rw [countErrLogs_append, gvaLabels_err_count, ih]
    simp [sumUnmapped]

theorem gvaDets_text_count (bad : Color) (sl : Option (List (String × String)))
    (c : Nat) (dets : List GvaDetection) :
    countTextOps (gvaDets bad sl c dets).2.1 = sumMapped sl dets := by
  induction dets generalizing c with
  | nil => simp [gvaDets, countTextOps, sumMapped]
  | cons d ds ih =>
    simp only [gvaDets]
    have : countTextOps (DrawOp.rect (d.x, d.y) (d.x + d.width, d.y + d.height)
        bad 2 :: ((gvaLabels bad sl d.x d.y c d.tensor).2.1 ++
          (gvaDets bad sl (gvaLabels bad sl d.x d.y c d.tensor).1 ds).2.1)) =
        countTextOps ((gvaLabels bad sl d.x d.y c d.tensor).2.1 ++
          (gvaDets bad sl (gvaLabels bad sl d.x d.y c d.tensor).1 ds).2.1) := by
      simp [countTextOps, List.filter_cons, isTextOp]
    rw [this, countTextOps_append, gvaLabels_text_count, ih]
    simp [sumMapped]

theorem gvaDets_rect_count (bad : Color) (sl : Option (List (String × String)))
    (c : Nat) (dets : List GvaDetection) :
    countRect2 (gvaDets bad sl c dets).2.1 = dets.length := by
  induction dets generalizing c with
  | nil => simp [gvaDets, countRect2]
  | cons d ds ih =>
    simp only [gvaDets]
    have : countRect2 (DrawOp.rect (d.x, d.y) (d.x + d.width, d.y + d.height)
        bad 2 :: ((gvaLabels bad sl d.x d.y c d.tensor).2.1 ++
          (gvaDets bad sl (gvaLabels bad sl d.x d.y c d.tensor).1 ds).2.1)) =
        countRect2 ((gvaLabels bad sl d.x d.y c d.tensor).2.1 ++
          (gvaDets bad sl (gvaLabels bad sl d.x d.y c d.tensor).1 ds).2.1) + 1 := by
      simp [countRect2, List.filter_cons, isRect2]
    rw [this, countRect2_append, gvaLabels_rect_count, ih]
    simp

theorem gvaDets_border_count (bad : Color) (sl : Option (List (String × String)))
    (c : Nat) (dets : List GvaDetection) :
    countBorderOps (gvaDets bad sl c dets).2.1 = 0 := by
  induction dets generalizing c with
  | nil => simp [gvaDets, countBorderOps]
  | cons d ds ih =>
    simp only [gvaDets]
    have : countBorderOps (DrawOp.rect (d.x, d.y) (d.x + d.width, d.y + d.height)
        bad 2 :: ((gvaLabels bad sl d.x d.y c d.tensor).2.1 ++
          (gvaDets bad sl (gvaLabels bad sl d.x d.y c d.tensor).1 ds).2.1)) =
        countBorderOps ((gvaLabels bad sl d.x d.y c d.tensor).2.1 ++
          (gvaDets bad sl (gvaLabels bad sl d.x d.y c d.tensor).1 ds).2.1) := by
      simp [countBorderOps, List.filter_cons, isBorderOp]
    rw [this, countBorderOps_append, gvaLabels_border_count, ih]

theorem gvaDets_rect_mem (bad : Color) (sl : Option (List (String × String)))
    (c : Nat) (dets : List GvaDetection) (d : GvaDetection) (hd : d ∈ dets) :
    DrawOp.rect (d.x, d.y) (d.x + d.width, d.y + d.height) bad 2 ∈
      (gvaDets bad sl c dets).2.1 := by
  induction dets generalizing c with
  | nil => cases hd
  | cons e ds ih =>
    rcases List.mem_cons.mp hd with h | h
    · subst h
      simp [gvaDets]
    · simp only [gvaDets, List.mem_cons, List.mem_append]
      exact Or.inr (Or.inr (ih _ h))

theorem gvaLabels_mapped_mem (bad : Color) (m : List (String × String))
    (x1 y1 : Int) (c : Nat) (pre post : List GvaLabel) (id : Int) (lbl : String)
    (hm : labelLookup m (toString id) = some lbl) :
    DrawOp.text lbl (x1, y1 - ((c + 10 * nonNoneCount pre : Nat) : Int)) bad 2 ∈
      (gvaLabels bad (some m) x1 y1 c (pre ++ GvaLabel.mk (some id) :: post)).2.1 := by
  induction pre generalizing c with
  | nil =>
    simp [gvaLabels, hm, nonNoneCount]
  | cons l ls ih =>
    cases hl : l.label_id with
    | none =>
      have : nonNoneCount (l :: ls) = nonNoneCount ls := by
        simp [nonNoneCount, List.filter_cons, hl]
      rw [List.cons_append]
      simp only [gvaLabels, hl, this]
      exact ih c
    | some j =>
      have hcnt : nonNoneCount (l :: ls) = nonNoneCount ls + 1 := by
        simp [nonNoneCount, List.filter_cons, hl]
      rw [List.cons_append]
      have harith : (c + 10 * nonNoneCount (l :: ls) : Nat) =
          ((c + 10) + 10 * nonNoneCount ls : Nat) := by
        rw [hcnt]; ring
      rw [harith]
      have hmem := ih (c + 10)
      cases hj : labelLookup m (toString j) with
      | none =>
        simp only [gvaLabels, hl, hj]
        simpa using hmem
      | some l2 =>
        simp only [gvaLabels, hl, hj]
        simp only [List.mem_cons, List.mem_append]
        right
        simpa using hmem

theorem defectOps_rect_count (bad : Color) (sl : Option (List (String × String)))
    (ds : List Defect) : countRect2 (defectOps bad sl ds) = ds.length := by
  induction ds with
  | nil => simp [defectOps, countRect2]
  | cons d ds ih =>
    simp only [defectOps]
    cases sl with
    | none =>
      simp [countRect2, List.filter_cons, isRect2] at ih ⊢
      simpa [countRect2] using ih
    | some m =>
      cases hm : labelLookup m (toString d.dtype) with
      | none =>
        simp [countRect2, List.filter_cons, List.filter_append, isRect2,
          hm] at ih ⊢
        simpa [countRect2] using ih
      | some lbl =>
        simp [countRect2, List.filter_cons, List.filter_append, isRect2,
          hm] at ih ⊢
        simpa [countRect2] using ih

theorem defectOps_border_count (bad : Color)
    (sl : Option (List (String × String))) (ds : List Defect) :
    countBorderOps (defectOps bad sl ds) = 0 := by
  induction ds with
  | nil => simp [defectOps, countBorderOps]
  | cons d ds ih =>
    simp only [defectOps]
    cases sl with
    | none =>
      simpa [countBorderOps, List.filter_cons, isBorderOp] using ih
    | some m =>
      cases hm : labelLookup m (toString d.dtype) with
      | none =>
        simpa [countBorderOps, List.filter_cons, List.filter_append,
          isBorderOp, hm] using ih
      | some lbl =>
        simpa [countBorderOps, List.filter_cons, List.filter_append,
          isBorderOp, hm] using ih

theorem defectOps_raw_text_mem (bad : Color) (m : List (String × String))
    (ds : List Defect) (d : Defect) (hd : d ∈ ds)
    (hm : labelLookup m (toString d.dtype) = none) :
    DrawOp.text (toString d.dtype) (d.tl.1, d.br.2 + 20) bad 2 ∈
      defectOps bad (some m) ds := by
  induction ds with
  | nil => cases hd
  | cons e ds ih =>
    rcases List.mem_cons.mp hd with h | h
    · subst h
      simp [defectOps, hm]
    · cases he : labelLookup m (toString e.dtype) with
      | none =>
        simp only [defectOps, he, List.mem_cons, List.mem_append]
        exact Or.inr (Or.inr (ih h))
      | some lbl =>
        simp only [defectOps, he, List.mem_cons, List.mem_append]
        exact Or.inr (Or.inr (ih h))

theorem fpsSection_rect_count (good : Color) (y : Int)
    (xs : List (String × PyVal)) :
    countRect2 (fpsSection good y xs).1 = 0 := by
  induction xs generalizing y with
  | nil => simp [fpsSection, countRect2]
  | cons kv rest ih =>
    cases hk : containsFps kv.1 with
    | false => simpa [fpsSection, hk] using ih y
    | true =>
      simp only [fpsSection, hk]
      simpa [countRect2, List.filter_cons, isRect2] using ih (y + 20)

theorem fpsSection_border_count (good : Color) (y : Int)
    (xs : List (String × PyVal)) :
    countBorderOps (fpsSection good y xs).1 = 0 := by
  induction xs generalizing y with
  | nil => simp [fpsSection, countBorderOps]
  | cons kv rest ih =>
    cases hk : containsFps kv.1 with
    | false => simpa [fpsSection, hk] using ih y
    | true =>
      simp only [fpsSection, hk]
      simpa [countBorderOps, List.filter_cons, isBorderOp] using ih (y + 20)

theorem fpsSection_err_count (good : Color) (y : Int)
    (xs : List (String × PyVal)) :
    countErrLogs (fpsSection good y xs).2 = 0 := by
  induction xs generalizing y with
  | nil => simp [fpsSection, countErrLogs]
  | cons kv rest ih =>
    cases hk : containsFps kv.1 with
    | false => simpa [fpsSection, hk] using ih y
    | true =>
      simp only [fpsSection, hk]
      simpa [countErrLogs, List.filter_cons, isErrLog] using ih (y + 20)

theorem dinfoEntryStep_rect_count (dy : Int) (e : DInfoEntry) :
    countRect2 (dinfoEntryStep dy e).2.1 = 0 := by
  rcases e with ⟨p, i⟩
  cases p with
  | none => simp [dinfoEntryStep, countRect2]
  | some pv =>
    cases i with
    | none => simp [dinfoEntryStep, countRect2]
    | some iv =>
      simp only [dinfoEntryStep]
      rcases hc : (if pyEqInt pv 0 then some ((0 : Int), (255 : Int), (0 : Int))
          else if pyEqInt pv 1 then some (0, 150, 170)
          else if pyEqInt pv 2 then some (0, 0, 255)
          else none) with _ | col
      · simp [countRect2]
      · cases iv <;> simp [countRect2, List.filter_cons, isRect2]

theorem dinfoEntryStep_border_count (dy : Int) (e : DInfoEntry) :
    countBorderOps (dinfoEntryStep dy e).2.1 = 0 := by
  rcases e with ⟨p, i⟩
  cases p with
  | none => simp [dinfoEntryStep, countBorderOps]
  | some pv =>
    cases i with
    | none => simp [dinfoEntryStep, countBorderOps]
    | some iv =>
      simp only [dinfoEntryStep]
      rcases hc : (if pyEqInt pv 0 then some ((0 : Int), (255 : Int), (0 : Int))
          else if pyEqInt pv 1 then some (0, 150, 170)
          else if pyEqInt pv 2 then some (0, 0, 255)
          else none) with _ | col
      · simp [countBorderOps]
      · cases iv <;> simp [countBorderOps, List.filter_cons, isBorderOp]

theorem dinfoEntryStep_err_count (dy : Int) (e : DInfoEntry) :
    countErrLogs (dinfoEntryStep dy e).2.2 = 0 := by
  rcases e with ⟨p, i⟩
  cases p with
  | none => simp [dinfoEntryStep, countErrLogs, isErrLog]
  | some pv =>
    cases i with
    | none => simp [dinfoEntryStep, countErrLogs, isErrLog]
    | some iv =>
      simp only [dinfoEntryStep]
      rcases hc : (if pyEqInt pv 0 then some ((0 : Int), (255 : Int), (0 : Int))
          else if pyEqInt pv 1 then some (0, 150, 170)
          else if pyEqInt pv 2 then some (0, 0, 255)
          else none) with _ | col
      · simp [countErrLogs]
      · cases iv <;> simp [countErrLogs, List.filter_cons, isErrLog]

theorem dinfoSection_rect_count (dy : Int) (es : List DInfoEntry) :
    countRect2 (dinfoSection dy es).1 = 0 := by
  induction es generalizing dy with
  | nil => simp [dinfoSection, countRect2]
  | cons e es ih =>
    simp only [dinfoSection]
    rw [countRect2_append, dinfoEntryStep_rect_count, ih]

theorem dinfoSection_border_count (dy : Int) (es : List DInfoEntry) :
    countBorderOps (dinfoSection dy es).1 = 0 := by
  induction es generalizing dy with
  | nil => simp [dinfoSection, countBorderOps]
  | cons e es ih =>
    simp only [dinfoSection]
    rw [countBorderOps_append, dinfoEntryStep_border_count, ih]

theorem dinfoSection_err_count (dy : Int) (es : List DInfoEntry) :
    countErrLogs (dinfoSection dy es).2 = 0 := by
  induction es generalizing dy with
  | nil => simp [dinfoSection, countErrLogs]
  | cons e es ih =>
    simp only [dinfoSection]
    rw [countErrLogs_append, dinfoEntryStep_err_count, ih]

theorem dinfoSection_append (dy : Int) (l1 l2 : List DInfoEntry) :
    dinfoSection dy (l1 ++ l2) =
      ((dinfoSection dy l1).1 ++ (dinfoSection (dinfoDy dy l1) l2).1,
       (dinfoSection dy l1).2 ++ (dinfoSection (dinfoDy dy l1) l2).2) := by
  induction l1 generalizing dy with
  | nil => simp [dinfoSection, dinfoDy]
  | cons e es ih =>
    rw [List.cons_append]
    simp only [dinfoSection, dinfoDy]
    rw [ih]
    simp

theorem draw_defect_ok_inv (imdecode : List Nat → Except String (List Nat))
    (g b : Color) (r : Results) (blob : List Nat)
    (sl : Option (List (String × String))) (out : RenderOut)
    (h : draw_defect imdecode g b r blob sl = .ok out) :
    ∃ d, decodeStage imdecode r blob = .ok d ∧
      out = ⟨d.1, overlayOps g b sl r,
        LogEvent.info "Preparing frame for visualization" :: d.2 ++
          overlayLog g b sl r⟩ := by
  cases hd : decodeStage imdecode r blob with
  | error e =>
    rw [draw_defect, hd] at h
    cases h
  | ok d =>
    rw [draw_defect, hd] at h
    refine ⟨d, rfl, ?_⟩
    cases h
    rfl

theorem queue_publish_keys {α : Type} (qd : List (String × BQueue α))
    (log : List LogEvent) (topic : String) (frame : α) :
    (queue_publish qd log topic frame).1.map Prod.fst = qd.map Prod.fst := by
  induction qd generalizing log with
  | nil => simp [queue_publish]
  | cons p rest ih =>
    rcases p with ⟨k, q⟩
    simp only [queue_publish]
    by_cases hk : k == topic
    · simp only [hk, if_true]
      by_cases hf : q.isFull
      · simp [hf, ih]
      · simp [hf, ih]
    · simp only [hk]
      simp [ih]

theorem lookupQ_cons {α : Type} (k t : String) (q : BQueue α)
    (l : List (String × BQueue α)) :
    lookupQ t ((k, q) :: l) =
      if (k == t) = true then some q else lookupQ t l := by
  by_cases h : (k == t) = true <;> simp [lookupQ, List.find?, h]

theorem queue_publish_other_topic {α : Type} (qd : List (String × BQueue α))
    (log : List LogEvent) (topic : String) (frame : α) (t : String)
    (ht : t ≠ topic) :
    lookupQ t (queue_publish qd log topic frame).1 = lookupQ t qd := by
  induction qd generalizing log with
  | nil => simp [queue_publish]
  | cons p rest ih =>
    rcases p with ⟨k, q⟩
    simp only [queue_publish]
    by_cases hk : k = topic
    · subst hk
      have hkt : (k == t) = false := by
        simp only [beq_eq_false_iff_ne, ne_eq]
        exact fun h => ht h.symm
      by_cases hf : q.isFull
      · simp only [beq_self_eq_true, if_true, hf]
        rw [lookupQ_cons, lookupQ_cons, hkt]
        simp only [Bool.false_eq_true, if_false]
        exact ih _
      · simp only [beq_self_eq_true, if_true, hf, Bool.false_eq_true, if_false]
        rw [lookupQ_cons, lookupQ_cons, hkt]
        simp only [Bool.false_eq_true, if_false]
        exact ih _
    · have hk' : (k == topic) = false := by simpa using hk
      simp only [hk', Bool.false_eq_true, if_false]
      rw [lookupQ_cons, lookupQ_cons]
      by_cases hkt : (k == t) = true
      · simp only [hkt, if_true]
      · simp only [hkt, if_false]
        exact ih _

theorem queue_publish_absent_topic {α : Type} (qd : List (String × BQueue α))
    (log : List LogEvent) (topic : String) (frame : α)
    (h : ∀ p ∈ qd, p.1 ≠ topic) :
    queue_publish qd log topic frame = (qd, log) := by
  induction qd generalizing log with
  | nil => simp [queue_publish]
  | cons p rest ih =>
    rcases p with ⟨k, q⟩
    have hk : (k == topic) = false := by
      simpa using h (k, q) (List.mem_cons_self _ _)
    simp only [queue_publish, hk, Bool.false_eq_true, if_false]
    rw [ih log (fun p hp => h p (List.mem_cons_of_mem _ hp))]

theorem queue_publish_length_le {α : Type} (qd : List (String × BQueue α))
    (log : List LogEvent) (topic : String) (frame : α)
    (h : ∀ p ∈ qd, 0 < p.2.cap ∧ p.2.buf.length ≤ p.2.cap) :
    ∀ p ∈ (queue_publish qd log topic frame).1,
      p.2.buf.length ≤ p.2.cap := by
  induction qd generalizing log with
  | nil =>
    intro p hp
    simp [queue_publish] at hp
  | cons hd rest ih =>
    rcases hd with ⟨k, q⟩
    have hhd := h (k, q) (List.mem_cons_self _ _)
    have hrest : ∀ p ∈ rest, 0 < p.2.cap ∧ p.2.buf.length ≤ p.2.cap :=
      fun p hp => h p (List.mem_cons_of_mem _ hp)
    intro p hp
    simp only [queue_publish] at hp
    by_cases hk : (k == topic) = true
    · simp only [hk, if_true] at hp
      by_cases hf : q.isFull
      · simp only [hf, if_true] at hp
        rcases List.mem_cons.mp hp with h1 | h1
        · subst h1; exact hhd.2
        · exact ih _ hrest p h1
      · simp only [hf, Bool.false_eq_true, if_false] at hp
        rcases List.mem_cons.mp hp with h1 | h1
        · subst h1
          have hnotfull : ¬ (q.cap ≠ 0 ∧ q.cap ≤ q.buf.length) := by
            simpa [BQueue.isFull] using hf
          have hlt : q.buf.length < q.cap := by
            rcases Nat.lt_or_ge q.buf.length q.cap with h2 | h2
            · exact h2
            · exact absurd ⟨Nat.pos_iff_ne_zero.mp hhd.1, h2⟩ hnotfull
          simpa using Nat.succ_le_of_lt hlt
        · exact ih _ hrest p h1
    · simp only [hk, Bool.false_eq_true, if_false] at hp
      rcases List.mem_cons.mp hp with h1 | h1
      · subst h1; exact hhd.2
      · exact ih _ hrest p h1

/-! Claim theorems. -/

/-- Claim C2: pushing frames 1..12 through `queue_publish` into a
capacity-10 topic queue with no pops leaves exactly frames 1..10 buffered
in order, emits exactly 2 "queue is full" drop warnings, the next
`get_nowait` returns frame 1 (oldest first), the queue length stays ≤ 10
after every one of the 12 pushes, and in general a push on a queue
respecting its (positive) capacity leaves every queue within capacity. -/
theorem C2_capacity10_drop_newest :
    (((List.range' 1 12).foldl (fun st f => queue_publish st.1 st.2 "cam1" f)
        ([("cam1", (⟨10, []⟩ : BQueue Nat))], [])).1 =
      [("cam1", ⟨10, [1, 2, 3, 4, 5, 6, 7, 8, 9, 10]⟩)]) ∧
    (countWarnLogs ((List.range' 1 12).foldl
        (fun st f => queue_publish st.1 st.2 "cam1" f)
        ([("cam1", (⟨10, []⟩ : BQueue Nat))], [])).2 = 2) ∧
    (BQueue.getNowait (⟨10, [1, 2, 3, 4, 5, 6, 7, 8, 9, 10]⟩ : BQueue Nat) =
      some (1, ⟨10, [2, 3, 4, 5, 6, 7, 8, 9, 10]⟩)) ∧
    (((List.range 13).all fun k =>
      ((List.range' 1 k).foldl (fun st f => queue_publish st.1 st.2 "cam1" f)
          ([("cam1", (⟨10, []⟩ : BQueue Nat))], [])).1.all fun p =>
        decide (p.2.buf.length ≤ 10)) = true) ∧
    (∀ (qd : List (String × BQueue Nat)) log topic frame,
      (∀ p ∈ qd, 0 < p.2.cap ∧ p.2.buf.length ≤ p.2.cap) →
      ∀ p ∈ (queue_publish qd log topic frame).1,
        p.2.buf.length ≤ p.2.cap) := by
  refine ⟨by decide, by decide, by decide, by decide, ?_⟩
  exact fun qd log topic frame h => queue_publish_length_le qd log topic frame h

/-- Witness for the general capacity-invariant part of C2, at a concrete
full queue: the push is dropped and the length stays at capacity. -/
theorem C2_capacity10_drop_newest_witness :
    ∀ p ∈ (queue_publish [("cam1", (⟨2, [7, 8]⟩ : BQueue Nat))] [] "cam1" 9).1,
      p.2.buf.length ≤ p.2.cap :=
  C2_capacity10_drop_newest.2.2.2.2 _ _ _ _ (by decide)

/-- Claim C8: `queue_publish` never touches the queue of any topic other
than the one the frame was produced for. -/
theorem C8_topic_isolation {α : Type} (qd : List (String × BQueue α))
    (log : List LogEvent) (topic : String) (frame : α) (t : String)
    (ht : t ≠ topic) :
    lookupQ t (queue_publish qd log topic frame).1 = lookupQ t qd :=
  queue_publish_other_topic qd log topic frame t ht

/-- Witness for C8 on a concrete two-topic dictionary. -/
theorem C8_topic_isolation_witness :
    lookupQ "cam2"
        (queue_publish [("cam1", (⟨10, []⟩ : BQueue Nat)), ("cam2", ⟨10, [3]⟩)]
          [] "cam1" 5).1 =
      lookupQ "cam2" [("cam1", (⟨10, []⟩ : BQueue Nat)), ("cam2", ⟨10, [3]⟩)] :=
  C8_topic_isolation _ _ _ _ _ (by decide)

/-- Claim C10: a `queue_publish` call whose topic is not a key of the
queue dictionary is a silent no-op — no queue is modified and no log
event is emitted (and the embedding is a total function, so no exception
is raised). -/
theorem C10_unknown_topic_silent_noop {α : Type}
    (qd : List (String × BQueue α)) (log : List LogEvent) (topic : String)
    (frame : α) (h : ∀ p ∈ qd, p.1 ≠ topic) :
    queue_publish qd log topic frame = (qd, log) :=
  queue_publish_absent_topic qd log topic frame h

/-- Witness for C10 at a concrete dictionary without the topic. -/
theorem C10_unknown_topic_silent_noop_witness :
    queue_publish [("cam1", (⟨10, [5]⟩ : BQueue Nat))] [] "cam2" 7 =
      ([("cam1", ⟨10, [5]⟩)], []) :=
  C10_unknown_topic_silent_noop _ _ _ _ (by decide)

/-- Counterexample to claim C3 as stated: on a record with
`encoding_level` present but `encoding_type` absent, both keys are NOT
present, yet the source's branch condition is taken and the direct
reshape (which would succeed, the payload length matching
height·width·channels) never happens — the call raises `KeyError`
instead. -/
theorem C3_counterexample :
    encodingCond ⟨1, 1, 1, none, some (.int 95), none, none, [], none⟩ = true ∧
    claimedBothPresent ⟨1, 1, 1, none, some (.int 95), none, none, [], none⟩ = false ∧
    draw_defect (fun _ => Except.error "unused") (0, 255, 0) (0, 0, 255)
        ⟨1, 1, 1, none, some (.int 95), none, none, [], none⟩ [0] none =
      Except.error (.keyError "encoding_type") ∧
    (([0] : List Nat).length : Int) = 1 * 1 * 1 := by
  decide

/-- Claim C3 as amended: the branch condition tests only membership of
`encoding_level` (the `encoding_type` conjunct is a truthy string
literal), and when `encoding_level` is absent the decode is the direct
reshape path — the result does not depend on the image codec at all. -/
theorem C3_encoding_branch (r : Results)
    (dec1 dec2 : List Nat → Except String (List Nat)) (g b : Color)
    (blob : List Nat) (sl : Option (List (String × String))) :
    encodingCond r = r.encoding_level.isSome ∧
    (r.encoding_level = none →
      draw_defect dec1 g b r blob sl = draw_defect dec2 g b r blob sl) := by
  constructor
  · have he : pyTruthyStr "encoding_type" = true := by decide
    simp [encodingCond, he]
  · intro h
    simp [draw_defect, decodeStage, encodingCond, pyTruthyStr, h,
      except_ok_bind, except_error_bind]

/-- Witness for C3's amended claim: with `encoding_type` present but
`encoding_level` absent, a succeeding codec and a failing codec give the
same result (the codec is never consulted). -/
theorem C3_encoding_branch_witness :
    draw_defect (fun _ => Except.ok [1, 2, 3]) (0, 255, 0) (0, 0, 255)
        ⟨1, 1, 1, some (.str "jpeg"), none, none, none, [], none⟩ [0] none =
      draw_defect (fun _ => Except.error "x") (0, 255, 0) (0, 0, 255)
        ⟨1, 1, 1, some (.str "jpeg"), none, none, none, [], none⟩ [0] none :=
  (C3_encoding_branch _ _ _ _ _ _ _).2 rfl

/-- Claim C4: with no declared encoding, a payload of exactly
height·width·channels bytes decodes to a buffer of that many samples,
and a payload of any other length makes `draw_defect` fail with the
reshape `ValueError` (the model's ShapeMismatch), so no frame reaches
the renderer sections or the queue — the callback iteration itself ends
in that error. -/
theorem C4_shape_mismatch (dec : List Nat → Except String (List Nat))
    (g b : Color) (r : Results) (blob : List Nat)
    (sl : Option (List (String × String)))
    (ht : r.encoding_type = none) (hl : r.encoding_level = none)
    (hh : 0 ≤ r.height) (hw : 0 ≤ r.width) (hc : 0 ≤ r.channels) :
    ((blob.length : Int) = r.height * r.width * r.channels →
      ∃ out, draw_defect dec g b r blob sl = .ok out ∧
        (out.frame.numSamples : Int) = r.height * r.width * r.channels) ∧
    ((blob.length : Int) ≠ r.height * r.width * r.channels →
      draw_defect dec g b r blob sl =
        .error (.valueError "cannot reshape array") ∧
      ∀ qd log topic,
        callback_step dec g b sl topic qd log (some r, some blob) =
          .error (.valueError "cannot reshape array")) := by
  constructor
  · intro hlen
    have hc1 : encodingCond r = false := by
      simp [encodingCond, pyTruthyStr, hl]
    refine ⟨⟨.shaped r.height r.width r.channels blob,
      overlayOps g b sl r,
      LogEvent.info "Preparing frame for visualization" ::
        [LogEvent.debug "Encoding not enabled..."] ++ overlayLog g b sl r⟩, ?_, ?_⟩
    · simp only [draw_defect, decodeStage, hc1, Bool.false_eq_true, if_false]
      rw [reshape3, if_pos ⟨hh, hw, hc, hlen⟩]
      rfl
    · simpa [FrameData.numSamples] using hlen
  · intro hlen
    have hc1 : encodingCond r = false := by
      simp [encodingCond, pyTruthyStr, hl]
    have hdd : draw_defect dec g b r blob sl =
        .error (.valueError "cannot reshape array") := by
      simp only [draw_defect, decodeStage, hc1, Bool.false_eq_true, if_false]
      rw [reshape3, if_neg (fun hcond => hlen hcond.2.2.2)]
      rfl
    refine ⟨hdd, fun qd log topic => ?_⟩
    simp [callback_step, hdd, except_error_bind]

/-- Witness for C4 at concrete inputs: a 1×1×1 frame with a 1-byte
payload decodes to 1 sample; with a 2-byte payload `draw_defect` and the
callback iteration fail with the reshape error. -/
theorem C4_shape_mismatch_witness :
    (∃ out, draw_defect (fun _ => Except.error "unused") (0, 255, 0) (0, 0, 255)
        ⟨1, 1, 1, none, none, none, none, [], none⟩ [0] none = .ok out ∧
      (out.frame.numSamples : Int) = 1 * 1 * 1) ∧
    draw_defect (fun _ => Except.error "unused") (0, 255, 0) (0, 0, 255)
        ⟨1, 1, 1, none, none, none, none, [], none⟩ [0, 7] none =
      .error (.valueError "cannot reshape array") := by
  constructor
  · exact (C4_shape_mismatch _ _ _ _ _ _ rfl rfl (by decide) (by decide)
      (by decide)).1 (by decide)
  · exact ((C4_shape_mismatch _ _ _ _ _ _ rfl rfl (by decide) (by decide)
      (by decide)).2 (by decide)).1

/-- Counterexample to claim C1 as stated: one malformed message (metadata
without encoding whose 2-byte payload does not match the declared 1×1×3
shape) makes the callback iteration end in an uncaught `ValueError` — the
failure is not caught, nothing is logged, and the receive loop
terminates. -/
theorem C1_counterexample :
    callback_step (fun _ => Except.error "unused") (0, 255, 0) (0, 0, 255)
        none "cam1" [("cam1", ⟨10, []⟩)] []
        (some ⟨1, 1, 3, none, none, none, none, [], none⟩, some [0, 0]) =
      Except.error (.valueError "cannot reshape array") := by
  decide

/-- Claim C1 as amended: only the `cv2.imdecode` failure (and the
per-entry display_info failures, handled inside the overlay) are caught.
When the metadata carries both encoding keys, `draw_defect` never raises
— whatever the codec does — the callback iteration completes, and a codec
failure is logged; a reshape failure on the
no-encoding path, by contrast, propagates (see the counterexample). -/
theorem C1_encoding_path_never_terminates
    (dec : List Nat → Except String (List Nat)) (g b : Color)
    (sl : Option (List (String × String))) (topic : String)
    (qd : List (String × BQueue RenderOut)) (log : List LogEvent)
    (r : Results) (blob : List Nat)
    (ht : r.encoding_type.isSome = true) (hl : r.encoding_level.isSome = true) :
    ∃ out st, draw_defect dec g b r blob sl = .ok out ∧
      callback_step dec g b sl topic qd log (some r, some blob) = .ok st ∧
      ∀ e, dec blob = .error e →
        LogEvent.error ("frame decode exception: " ++ e) ∈ out.log := by
  obtain ⟨t, ht'⟩ := Option.isSome_iff_exists.mp ht
  obtain ⟨lv, hl'⟩ := Option.isSome_iff_exists.mp hl
  have hcond : encodingCond r = true := by
    simp only [encodingCond, pyTruthyStr, hl', Option.isSome_some, Bool.and_true]
    decide
  cases hdec : dec blob with
  | ok d =>
    have hdd : draw_defect dec g b r blob sl =
        .ok ⟨.decoded d, overlayOps g b sl r,
          LogEvent.info "Preparing frame for visualization" :: [] ++
            overlayLog g b sl r⟩ := by
      simp only [draw_defect, decodeStage, hcond, if_true, ht', hl', hdec,
        except_ok_bind]
    refine ⟨⟨.decoded d, overlayOps g b sl r,
      LogEvent.info "Preparing frame for visualization" :: [] ++
        overlayLog g b sl r⟩,
      queue_publish qd (log ++
        (LogEvent.info "Preparing frame for visualization" :: [] ++
          overlayLog g b sl r)) topic
        ⟨.decoded d, overlayOps g b sl r,
          LogEvent.info "Preparing frame for visualization" :: [] ++
            overlayLog g b sl r⟩, hdd, ?_, ?_⟩
    · simp [callback_step, hdd, except_ok_bind]
    · intro e he
      simp at he
  | error e0 =>
    have hdd : draw_defect dec g b r blob sl =
        .ok ⟨.buf1d blob, overlayOps g b sl r,
          LogEvent.info "Preparing frame for visualization" ::
            [LogEvent.error ("frame decode exception: " ++ e0)] ++
            overlayLog g b sl r⟩ := by
      simp only [draw_defect, decodeStage, hcond, if_true, ht', hl', hdec,
        except_ok_bind]
    refine ⟨⟨.buf1d blob, overlayOps g b sl r,
      LogEvent.info "Preparing frame for visualization" ::
        [LogEvent.error ("frame decode exception: " ++ e0)] ++
        overlayLog g b sl r⟩,
      queue_publish qd (log ++
        (LogEvent.info "Preparing frame for visualization" ::
          [LogEvent.error ("frame decode exception: " ++ e0)] ++
          overlayLog g b sl r)) topic
        ⟨.buf1d blob, overlayOps g b sl r,
          LogEvent.info "Preparing frame for visualization" ::
            [LogEvent.error ("frame decode exception: " ++ e0)] ++
            overlayLog g b sl r⟩, hdd, ?_, ?_⟩
    · simp [callback_step, hdd, except_ok_bind]
    · intro e he
      injection he with h1
      subst h1
      simp

/-- Witness for C1's amended claim: a message with both encoding keys and
a failing codec still yields a completed iteration, and the codec error
is logged. -/
theorem C1_encoding_path_never_terminates_witness :
    ∃ out st,
      draw_defect (fun _ => Except.error "boom") (0, 255, 0) (0, 0, 255)
        ⟨1, 1, 1, some (.str "jpeg"), some (.int 95), none, none, [], none⟩
        [9, 9] none = .ok out ∧
      callback_step (fun _ => Except.error "boom") (0, 255, 0) (0, 0, 255)
        none "cam1" [("cam1", ⟨10, []⟩)] []
        (some ⟨1, 1, 1, some (.str "jpeg"), some (.int 95), none, none, [], none⟩,
          some [9, 9]) = .ok st ∧
      ∀ e, (fun (_ : List Nat) => Except.error (ε := String) (α := List Nat) "boom") [9, 9] = .error e →
        LogEvent.error ("frame decode exception: " ++ e) ∈ out.log :=
  C1_encoding_path_never_terminates _ _ _ _ _ _ _ _ _ rfl rfl

/-- Claim C5: on every successfully decoded frame, exactly one uniform
5-pixel border is drawn when the `defects` key is present — bad color for
a non-empty defect list, good color for an empty one — with one 2-pixel
rectangle per defect (plus one per gva detection); no border is ever
drawn when the `defects` key is absent. -/
theorem C5_defect_border (dec : List Nat → Except String (List Nat))
    (g b : Color) (r : Results) (blob : List Nat)
    (sl : Option (List (String × String))) (out : RenderOut)
    (h : draw_defect dec g b r blob sl = .ok out) :
    (∀ ds, r.defects = some ds →
      countBorderOps out.ops = 1 ∧
      DrawOp.border 5 5 5 5 (if ds.isEmpty then g else b) ∈ out.ops ∧
      countRect2 out.ops = gvaCount r + ds.length) ∧
    (r.defects = none → countBorderOps out.ops = 0) := by
  obtain ⟨d, _, hout⟩ := draw_defect_ok_inv dec g b r blob sl out h
  have hops : out.ops = overlayOps g b sl r := by rw [hout]
  have hgb : countBorderOps (gvaSection b sl r).2.1 = 0 := by
    unfold gvaSection
    cases r.gva_meta with
    | none => simp [countBorderOps]
    | some dets => exact gvaDets_border_count _ _ _ _
  have hgr : countRect2 (gvaSection b sl r).2.1 = gvaCount r := by
    unfold gvaSection gvaCount
    cases r.gva_meta with
    | none => simp [countRect2]
    | some dets => exact gvaDets_rect_count _ _ _ _
  have hfb := fpsSection_border_count g 20 r.extra
  have hfr := fpsSection_rect_count g 20 r.extra
  have hdb : countBorderOps (dinfoPart r).1 = 0 := by
    unfold dinfoPart
    cases r.display_info with
    | none => simp [countBorderOps]
    | some es => exact dinfoSection_border_count _ _
  have hdr : countRect2 (dinfoPart r).1 = 0 := by
    unfold dinfoPart
    cases r.display_info with
    | none => simp [countRect2]
    | some es => exact dinfoSection_rect_count _ _
  constructor
  · intro ds hds
    have hdef : defectSection g b sl r =
        defectOps b sl ds ++ [.border 5 5 5 5 (if ds.isEmpty then g else b)] := by
      simp [defectSection, hds]
    refine ⟨?_, ?_, ?_⟩
    · rw [hops, overlayOps, countBorderOps_append, countBorderOps_append,
        countBorderOps_append, hgb, hfb, hdb, hdef, countBorderOps_append,
        defectOps_border_count]
      simp [countBorderOps, isBorderOp]
    · rw [hops, overlayOps, hdef]
      simp
    · rw [hops, overlayOps, countRect2_append, countRect2_append,
        countRect2_append, hgr, hfr, hdr, hdef, countRect2_append,
        defectOps_rect_count]
      simp [countRect2, isRect2]
  · intro hds
    have hdef : defectSection g b sl r = [] := by
      simp [defectSection, hds]
    rw [hops, overlayOps, countBorderOps_append, countBorderOps_append,
      countBorderOps_append, hgb, hfb, hdb, hdef]
    simp [countBorderOps]

/-- Witness for C5 at a concrete record with one defect and no label
map: one bad-color border and one rectangle. -/
theorem C5_defect_border_witness :
    countBorderOps [DrawOp.rect (10, 10) (50, 50) (0, 0, 255) 2,
      DrawOp.border 5 5 5 5 (0, 0, 255)] = 1 ∧
    DrawOp.border 5 5 5 5
        (if ([Defect.mk (10, 10) (50, 50) 5]).isEmpty then ((0 : Int), (255 : Int), (0 : Int)) else (0, 0, 255)) ∈
      [DrawOp.rect (10, 10) (50, 50) (0, 0, 255) 2,
        DrawOp.border 5 5 5 5 (0, 0, 255)] ∧
    countRect2 [DrawOp.rect (10, 10) (50, 50) (0, 0, 255) 2,
      DrawOp.border 5 5 5 5 (0, 0, 255)] =
      gvaCount ⟨1, 1, 1, none, none, none,
        some [Defect.mk (10, 10) (50, 50) 5], [], none⟩ +
        [Defect.mk (10, 10) (50, 50) 5].length :=
  (C5_defect_border (fun _ => Except.error "unused") (0, 255, 0) (0, 0, 255)
    ⟨1, 1, 1, none, none, none, some [Defect.mk (10, 10) (50, 50) 5], [], none⟩
    [0] none
    ⟨.shaped 1 1 1 [0],
      [DrawOp.rect (10, 10) (50, 50) (0, 0, 255) 2,
        DrawOp.border 5 5 5 5 (0, 0, 255)],
      [.info "Preparing frame for visualization",
        .debug "Encoding not enabled..."]⟩
    (by decide)).1 [Defect.mk (10, 10) (50, 50) 5] rfl

/-- Counterexample to claim C6 as stated: a gva detection whose label id 7
is missing from the (empty) label map gets one logged error but NO
on-frame text at all (the raw id is not drawn); and a defect whose type 5
is missing from the map gets the raw "5" drawn but NO logged error. -/
theorem C6_counterexample :
    countTextOps (gvaDets (0, 0, 255) (some []) 0
        [⟨0, 0, 10, 10, [⟨some 7⟩]⟩]).2.1 = 0 ∧
    countErrLogs (gvaDets (0, 0, 255) (some []) 0
        [⟨0, 0, 10, 10, [⟨some 7⟩]⟩]).2.2 = 1 ∧
    draw_defect (fun _ => Except.error "unused") (0, 255, 0) (0, 0, 255)
        ⟨1, 1, 1, none, none, none, some [Defect.mk (10, 10) (50, 50) 5], [],
          none⟩ [0] (some []) =
      .ok ⟨.shaped 1 1 1 [0],
        [.rect (10, 10) (50, 50) (0, 0, 255) 2,
          .text "5" (10, 70) (0, 0, 255) 2,
          .border 5 5 5 5 (0, 0, 255)],
        [.info "Preparing frame for visualization",
          .debug "Encoding not enabled..."]⟩ ∧
    countErrLogs [.info "Preparing frame for visualization",
      .debug "Encoding not enabled..."] = 0 ∧
    DrawOp.text "5" (10, 70) (0, 0, 255) 2 ∈
      [DrawOp.rect (10, 10) (50, 50) (0, 0, 255) 2,
        DrawOp.text "5" (10, 70) (0, 0, 255) 2,
        DrawOp.border 5 5 5 5 (0, 0, 255)] := by
  decide

/-- Claim C6 as amended: in the gva section, each non-`None` label id
missing from the label map produces exactly one logged error
per occurrence and no text (text draws count exactly the mapped
occurrences); in the defects section an unknown type is drawn as the raw
type text below the box and nothing is logged (the defects loop contains
no logger call); neither path raises. -/
theorem C6_unknown_label_behavior (bad : Color)
    (sl : Option (List (String × String))) (c : Nat)
    (dets : List GvaDetection) (m : List (String × String)) (ds : List Defect)
    (d : Defect) (hd : d ∈ ds)
    (hm : labelLookup m (toString d.dtype) = none) :
    countErrLogs (gvaDets bad sl c dets).2.2 = sumUnmapped sl dets ∧
    countTextOps (gvaDets bad sl c dets).2.1 = sumMapped sl dets ∧
    DrawOp.text (toString d.dtype) (d.tl.1, d.br.2 + 20) bad 2 ∈
      defectOps bad (some m) ds :=
  ⟨gvaDets_err_count bad sl c dets, gvaDets_text_count bad sl c dets,
    defectOps_raw_text_mem bad m ds d hd hm⟩

/-- Witness for C6's amended claim at concrete inputs. -/
theorem C6_unknown_label_behavior_witness :
    countErrLogs (gvaDets (0, 0, 255) (some []) 0
        [⟨0, 0, 10, 10, [⟨some 7⟩]⟩]).2.2 =
      sumUnmapped (some []) [⟨0, 0, 10, 10, [⟨some 7⟩]⟩] ∧
    countTextOps (gvaDets (0, 0, 255) (some []) 0
        [⟨0, 0, 10, 10, [⟨some 7⟩]⟩]).2.1 =
      sumMapped (some []) [⟨0, 0, 10, 10, [⟨some 7⟩]⟩] ∧
    DrawOp.text (toString (5 : Int)) ((10 : Int), (50 : Int) + 20) (0, 0, 255) 2 ∈
      defectOps (0, 0, 255) (some []) [Defect.mk (10, 10) (50, 50) 5] :=
  C6_unknown_label_behavior (0, 0, 255) (some []) 0
    [⟨0, 0, 10, 10, [⟨some 7⟩]⟩] [] [Defect.mk (10, 10) (50, 50) 5]
    (Defect.mk (10, 10) (50, 50) 5) (by decide) (by decide)

/-- Counterexample to claim C7 as stated: a display_info list whose first
entry has the string "high" as priority and whose second entry is valid —
the malformed entry is skipped but NOTHING is logged (Python `==` between
a string and an int is simply False, no exception is raised), while the
valid entry still renders. -/
theorem C7_counterexample :
    dinfoSection 50 [⟨some (.str "high"), some (.str "x")⟩,
        ⟨some (.int 0), some (.str "y")⟩] =
      ([.text "y" (20, 70) (0, 255, 0) 1], []) := by
  decide

/-- Claim C7 as amended: the display_info loop processes entries
independently — the ops and logs of a list split as the concatenation of
the two halves' ops and logs (so no entry, however malformed, aborts the
later ones); an entry that raises KeyError (missing key) is logged and
the next valid entry still renders; but an entry whose priority is a
non-int value that raises nothing is skipped silently, without any log
(see the counterexample). -/
theorem C7_dinfo_isolation :
    (∀ (dy : Int) (l1 l2 : List DInfoEntry),
      dinfoSection dy (l1 ++ l2) =
        ((dinfoSection dy l1).1 ++ (dinfoSection (dinfoDy dy l1) l2).1,
         (dinfoSection dy l1).2 ++ (dinfoSection (dinfoDy dy l1) l2).2)) ∧
    dinfoSection 50 [⟨none, some (.str "x")⟩, ⟨some (.int 0), some (.str "y")⟩] =
      ([.text "y" (20, 60) (0, 255, 0) 1],
       [.exception "Key not found: priority"]) :=
  ⟨dinfoSection_append, by decide⟩

/-- Counterexample to claim C9 as stated: two detections at y = 100, each
with one mapped label "cat"; the second detection's only label should sit
directly above its own box at (50, 100), but the stacking counter carried
over from the first detection places it at (50, 90). -/
theorem C9_counterexample :
    DrawOp.text "cat" (50, 90) (0, 0, 255) 2 ∈
      (gvaDets (0, 0, 255) (some [("3", "cat")]) 0
        [⟨0, 100, 10, 10, [⟨some 3⟩]⟩, ⟨50, 100, 10, 10, [⟨some 3⟩]⟩]).2.1 ∧
    DrawOp.text "cat" (50, 100) (0, 0, 255) 2 ∉
      (gvaDets (0, 0, 255) (some [("3", "cat")]) 0
        [⟨0, 100, 10, 10, [⟨some 3⟩]⟩, ⟨50, 100, 10, 10, [⟨some 3⟩]⟩]).2.1 := by
  decide

/-- Claim C9 as amended: each detection gets a 2-px bad-color rectangle at
(x, y)-(x+width, y+height); the 10-px stacking counter is cumulative over
the whole frame — it advances by 10 for EVERY non-`None` label id (mapped
or not, drawn or not) and is never reset between detections — and a
mapped label preceded (in its own tensor, with incoming counter c) by
`pre` entries is drawn at (x, y − (c + 10·|non-None ids in pre|)); unknown
ids are logged and not drawn (see C6). -/
theorem C9_gva_overlay (bad : Color) (sl : Option (List (String × String)))
    (c : Nat) (dets : List GvaDetection) (d : GvaDetection) (hd : d ∈ dets)
    (m : List (String × String)) (x1 y1 : Int) (c2 : Nat)
    (pre post : List GvaLabel) (id : Int) (lbl : String)
    (hm : labelLookup m (toString id) = some lbl) :
    DrawOp.rect (d.x, d.y) (d.x + d.width, d.y + d.height) bad 2 ∈
      (gvaDets bad sl c dets).2.1 ∧
    (gvaDets bad sl c dets).1 = c + 10 * sumNonNone dets ∧
    DrawOp.text lbl (x1, y1 - ((c2 + 10 * nonNoneCount pre : Nat) : Int)) bad 2 ∈
      (gvaLabels bad (some m) x1 y1 c2
        (pre ++ GvaLabel.mk (some id) :: post)).2.1 :=
  ⟨gvaDets_rect_mem bad sl c dets d hd, gvaDets_counter bad sl c dets,
    gvaLabels_mapped_mem bad m x1 y1 c2 pre post id lbl hm⟩

/-- Witness for C9's amended claim at concrete inputs: one unmapped label
before a mapped one pushes the mapped text 10 px higher. -/
theorem C9_gva_overlay_witness :
    DrawOp.rect ((0 : Int), (100 : Int)) ((0 : Int) + 10, (100 : Int) + 10)
        (0, 0, 255) 2 ∈
      (gvaDets (0, 0, 255) (some [("3", "cat")]) 0
        [⟨0, 100, 10, 10, [⟨some 7⟩, ⟨some 3⟩]⟩]).2.1 ∧
    (gvaDets (0, 0, 255) (some [("3", "cat")]) 0
        [⟨0, 100, 10, 10, [⟨some 7⟩, ⟨some 3⟩]⟩]).1 =
      0 + 10 * sumNonNone [⟨0, 100, 10, 10, [⟨some 7⟩, ⟨some 3⟩]⟩] ∧
    DrawOp.text "cat"
        ((0 : Int), (100 : Int) - ((0 + 10 * nonNoneCount [⟨some 7⟩] : Nat) : Int))
        (0, 0, 255) 2 ∈
      (gvaLabels (0, 0, 255) (some [("3", "cat")]) 0 100 0
        ([⟨some 7⟩] ++ GvaLabel.mk (some 3) :: [])).2.1 :=
  C9_gva_overlay (0, 0, 255) (some [("3", "cat")]) 0
    [⟨0, 100, 10, 10, [⟨some 7⟩, ⟨some 3⟩]⟩]
    ⟨0, 100, 10, 10, [⟨some 7⟩, ⟨some 3⟩]⟩ (by decide)
    [("3", "cat")] 0 100 0 [⟨some 7⟩] [] 3 "cat" (by decide)

end Visualize
